import Mathlib

/-!
Shallow embedding of the Numbix-FS face-liveness / biometric-matching core.

Sources embedded here (JS numbers are idealized as exact rationals for
coordinates and as real numbers where `Math.sqrt` / `Math.hypot` appear;
fallible calls return `Except` / `Option`):

* `FaceLiveness` (src/unnamed/part_007): the liveness challenge state machine
  (`checkBlink`, `checkTurn`, `advance`, the `detect` frame loop, bounds and
  face-too-far gating).
* `FaceEnrollment.tsx` (src/components): the capture-gate counter of `detect`
  and `averageEmbeddings`.
* `lib/match.ts`: `cosineDistance`.
* `faceMatch.ts` (src/unnamed/part_003): `cosineSimilarity`.

React display state (`setEarValue`, `setFaceDetected`, overlay drawing, …) has
no effect on the challenge logic and is not modelled.
-/

noncomputable section

/-- `type Challenge = "blink" | "turn_left" | "turn_right"` (part_007). -/
inductive Challenge where
  | blink
  | turn_left
  | turn_right
deriving DecidableEq

/-- `type Status = "initializing" | "challenge" | "passed" | "error"` (part_007). -/
inductive Status where
  | initializing
  | challenge
  | passed
  | error
deriving DecidableEq

/-- `type Point = { x: number; y: number }` (part_007); coordinates as exact rationals. -/
structure Point where
  x : ℚ
  y : ℚ
deriving DecidableEq

/-- `const LEFT_EYE = [33, 160, 158, 133, 153, 144]` (part_007). -/
def LEFT_EYE : List ℕ := [33, 160, 158, 133, 153, 144]

/-- `const RIGHT_EYE = [263, 387, 385, 362, 380, 373]` (part_007). -/
def RIGHT_EYE : List ℕ := [263, 387, 385, 362, 380, 373]

/-- `const NOSE = 1` (part_007). -/
def NOSE : ℕ := 1

/-- `const LEFT_CHEEK = 234` (part_007). -/
def LEFT_CHEEK : ℕ := 234

/-- `const RIGHT_CHEEK = 454` (part_007). -/
def RIGHT_CHEEK : ℕ := 454

/-- `const CHALLENGES: Challenge[] = ["blink", "turn_left", "turn_right"]` (part_007). -/
def CHALLENGES : List Challenge := [.blink, .turn_left, .turn_right]

/-- `const BLINK_CLOSE_THRESHOLD = 0.22` (part_007). -/
def BLINK_CLOSE_THRESHOLD : ℝ := 22 / 100

/-- `const BLINK_OPEN_THRESHOLD = 0.26` (part_007). -/
def BLINK_OPEN_THRESHOLD : ℝ := 26 / 100

/-- `const TURN_THRESHOLD = 0.15` (part_007). -/
def TURN_THRESHOLD : ℚ := 15 / 100

/-- `const TURN_HOLD_FRAMES = 12` (part_007). -/
def TURN_HOLD_FRAMES : ℕ := 12

/-- `const FACE_TOO_FAR_RATIO = 0.28` (part_007). -/
def FACE_TOO_FAR_RATIO : ℚ := 28 / 100

/-- `const DETECT_WIDTH = 640` (part_007). -/
def DETECT_WIDTH : ℚ := 640

/-- `const distance = (a, b) => Math.hypot(a.x - b.x, a.y - b.y)` (part_007). -/
def distance (a b : Point) : ℝ :=
  Real.sqrt ((((a.x - b.x) ^ 2 + (a.y - b.y) ^ 2 : ℚ) : ℝ))

/-- `eyeAspectRatio` (part_007): `(v1 + v2) / (2 * h)` over six eye points. -/
def eyeAspectRatio (eye : List Point) : ℝ :=
  let v1 := distance (eye.getD 1 ⟨0, 0⟩) (eye.getD 5 ⟨0, 0⟩)
  let v2 := distance (eye.getD 2 ⟨0, 0⟩) (eye.getD 4 ⟨0, 0⟩)
  let h := distance (eye.getD 0 ⟨0, 0⟩) (eye.getD 3 ⟨0, 0⟩)
  (v1 + v2) / (2 * h)

/-- The mutable refs of `FaceLiveness` read or written by the challenge checks
(part_007 lines 67-90): blink hysteresis flags, challenge index, turn hold
counter, session status and the face-too-far flag. -/
structure LState where
  eyeClosed : Bool
  blinkConfirmed : Bool
  hasSeenEyesOpen : Bool
  challengeIndex : ℕ
  turnHoldFrames : ℕ
  status : Status
  faceTooFar : Bool
deriving DecidableEq

/-- The challenge-check state at the start of the detect loop:
`resetLivenessState()` followed by `setStatus("challenge")` (part_007 lines
94-100 and 155-157). -/
def initState : LState :=
  { eyeClosed := false
    blinkConfirmed := false
    hasSeenEyesOpen := false
    challengeIndex := 0
    turnHoldFrames := 0
    status := .challenge
    faceTooFar := false }

/-- The challenge-relevant components of the state: both blink flags, the
seen-open flag, the challenge index, the turn hold counter and the session
status (everything the spec calls "challenge hysteresis state"). -/
def challengeState (s : LState) : Bool × Bool × Bool × ℕ × ℕ × Status :=
  (s.eyeClosed, s.blinkConfirmed, s.hasSeenEyesOpen, s.challengeIndex,
   s.turnHoldFrames, s.status)

/-- `advance()` (part_007 lines 410-431): reset the hold counter, bump the
index, and on reaching the end of `CHALLENGES` mark the session passed.
(The raf/track teardown and `onPassed` callback are external effects.) -/
def advance (s : LState) : LState :=
  let s := { s with turnHoldFrames := 0, challengeIndex := s.challengeIndex + 1 }
  if CHALLENGES.length ≤ s.challengeIndex then { s with status := .passed } else s

/-- The EAR-driven core of `checkBlink` (part_007 lines 355-369), after the EAR
has been computed from the keypoints.  `Number.isNaN(ear)` has no counterpart
for real-valued `ear`; the `ear <= 0` guard is kept verbatim. -/
def blinkStep (s : LState) (ear : ℝ) : LState :=
  if ear ≤ 0 then s
  else if s.blinkConfirmed then s
  else
    let s1 := if BLINK_OPEN_THRESHOLD < ear then { s with hasSeenEyesOpen := true } else s
    let s2 := if ear < BLINK_CLOSE_THRESHOLD ∧ s1.hasSeenEyesOpen then
                { s1 with eyeClosed := true } else s1
    if s2.eyeClosed ∧ BLINK_OPEN_THRESHOLD < ear then
      advance { s2 with blinkConfirmed := true }
    else s2

/-- The averaged EAR that `checkBlink` computes from the two eyes
(part_007 line 355). -/
def earOf (points : List Point) : ℝ :=
  (eyeAspectRatio (LEFT_EYE.map (fun i => points.getD i ⟨0, 0⟩)) +
   eyeAspectRatio (RIGHT_EYE.map (fun i => points.getD i ⟨0, 0⟩))) / 2

/-- `checkBlink(points)` (part_007 lines 347-370).  The `valid` checks on the
eye keypoints always succeed in this model because `Point` carries total
rational coordinates. -/
def checkBlink (points : List Point) (s : LState) : LState :=
  if s.faceTooFar then s
  else blinkStep s (earOf points)

/-- The offset-driven core of `checkTurn` (part_007 lines 383-407), after the
nose offset has been computed.  `dir` is `CHALLENGES[challengeIndexRef]`,
which is `undefined` (here `none`) once the index runs past the list. -/
def checkTurnOffset (dir : Option Challenge) (offset : ℚ) (s : LState) : LState :=
  let noseTowardImageLeft := offset < 45 / 100 - TURN_THRESHOLD
  let noseTowardImageRight := 55 / 100 + TURN_THRESHOLD < offset
  if dir = some .turn_left then
    if noseTowardImageRight then
      let s1 := { s with turnHoldFrames := s.turnHoldFrames + 1 }
      if TURN_HOLD_FRAMES ≤ s1.turnHoldFrames then
        advance { s1 with turnHoldFrames := 0 }
      else s1
    else { s with turnHoldFrames := 0 }
  else if dir = some .turn_right then
    if noseTowardImageLeft then
      let s1 := { s with turnHoldFrames := s.turnHoldFrames + 1 }
      if TURN_HOLD_FRAMES ≤ s1.turnHoldFrames then
        advance { s1 with turnHoldFrames := 0 }
      else s1
    else { s with turnHoldFrames := 0 }
  else s

/-- `checkTurn(points, dir)` (part_007 lines 372-408). -/
def checkTurn (points : List Point) (dir : Option Challenge) (s : LState) : LState :=
  if s.faceTooFar then s
  else
    let nose := points.getD NOSE ⟨0, 0⟩
    let left := points.getD LEFT_CHEEK ⟨0, 0⟩
    let right := points.getD RIGHT_CHEEK ⟨0, 0⟩
    let width := right.x - left.x
    if width ≤ 0 then s
    else checkTurnOffset dir ((nose.x - left.x) / width) s

/-- The record returned by `getFaceBounds` (part_007 lines 206-221). -/
structure Bounds where
  minX : ℚ
  minY : ℚ
  maxX : ℚ
  maxY : ℚ
  width : ℚ
  height : ℚ
  centerX : ℚ
  centerY : ℚ
deriving DecidableEq

/-- One step of the min/max accumulation of `getFaceBounds`:
`(minX, minY, maxX, maxY)` so far, `none` standing for the
`Infinity`-initialised accumulator before the first point. -/
def boundsFold (acc : Option (ℚ × ℚ × ℚ × ℚ)) (p : Point) : Option (ℚ × ℚ × ℚ × ℚ) :=
  match acc with
  | none => some (p.x, p.y, p.x, p.y)
  | some (a, b, c, d) => some (min a p.x, min b p.y, max c p.x, max d p.y)

/-- `getFaceBounds(points)` (part_007 lines 206-221): min/max fold over the
keypoints, `null` (here `none`) when no point was seen.  The
`typeof p.x !== "number"` skips never fire for total rational points. -/
def getFaceBounds (points : List Point) : Option Bounds :=
  let acc := points.foldl boundsFold none
  match acc with
  | none => none
  | some (minX, minY, maxX, maxY) =>
    some { minX := minX, minY := minY, maxX := maxX, maxY := maxY
           width := maxX - minX, height := maxY - minY
           centerX := (minX + maxX) / 2, centerY := (minY + maxY) / 2 }

/-- The portion of the `detect` loop (part_007 lines 301-339) that runs once a
usable keypoint set `points` has been determined: recompute the face-too-far
flag from the bounds, then dispatch to `checkBlink` or `checkTurn` according
to the active challenge.  (`setFaceDetected`, the mesh overlay, the EAR debug
display, and `faceOffCenter` are display-only.) -/
def processTick (active : Option Challenge) (points : List Point) (s : LState) : LState :=
  let s1 :=
    match getFaceBounds points with
    | some b => { s with faceTooFar := decide (b.width < DETECT_WIDTH * FACE_TOO_FAR_RATIO) }
    | none => s
  if active = some .blink then checkBlink points s1 else checkTurn points active s1

/-- The loop-level refs of `FaceLiveness` detect loop (part_007 lines 86-88):
the challenge-check state together with the cached keypoints used by the
inference-skip optimisation and the frame counter. -/
structure DState where
  inner : LState
  lastKeypoints : Option (List Point)
  frameCount : ℕ
deriving DecidableEq

/-- The full loop state at the start of the detect loop. -/
def initDState : DState :=
  { inner := initState, lastKeypoints := none, frameCount := 0 }

/-- `skipInference` (part_007 line 249): during the blink challenge, every
second frame reuses the cached keypoints instead of running inference. -/
def skipInference (s : DState) : Bool :=
  decide (CHALLENGES[s.inner.challengeIndex]? = some .blink) &&
  decide (s.frameCount % 2 = 1) && s.lastKeypoints.isSome

/-- One iteration of the `detect` loop (part_007 lines 226-342).  The input
`frame` is the face-landmark detector result for this frame: `none` when
`estimateFaces` yields no face, `some kp` for the primary face's keypoints.
On a skip frame the detector is not consulted and the cached keypoints are
reused.  A no-face frame clears the cache and the too-far flag (lines
267-283); short keypoint sets (< 380 points) return without touching
anything (lines 286-289 and 296-299). -/
def detectStep (s : DState) (frame : Option (List Point)) : DState :=
  let active := CHALLENGES[s.inner.challengeIndex]?
  let skip := skipInference s
  let s := { s with frameCount := s.frameCount + 1 }
  if skip then
    match s.lastKeypoints with
    | some pts =>
      if pts.length < 380 then s
      else { s with inner := processTick active pts s.inner }
    | none => s
  else
    match frame with
    | none => { s with lastKeypoints := none, inner := { s.inner with faceTooFar := false } }
    | some kp =>
      if kp.length < 380 then s
      else { s with lastKeypoints := some kp, inner := processTick active kp s.inner }

/-- A session state reachable by the detect loop from its starting state. -/
def Reachable (s : DState) : Prop :=
  ∃ frames : List (Option (List Point)), s = frames.foldl detectStep initDState

/-- `const REQUIRED_FRAMES = 90` (FaceEnrollment.tsx line 39, FaceCapture.tsx
line 11). -/
def REQUIRED_FRAMES : ℕ := 90

/-- The capture-gate step of `FaceEnrollment.detect` (lines 99-116): absent
face resets `stableFramesRef` to zero; a present face increments it, and on
reaching `REQUIRED_FRAMES` the gate fires (`captureEmbedding` is invoked) and
the counter resets.  Result: (new counter, fired this frame?).
`FaceCapture.detect` (lines 63-96) uses the same counter but stops the loop at
the first fire. -/
def captureStep (stable : ℕ) (facePresent : Bool) : ℕ × Bool :=
  if !facePresent then (0, false)
  else
    let stable := stable + 1
    if REQUIRED_FRAMES ≤ stable then (0, true) else (stable, false)

/-- Run the capture gate over a frame sequence, returning the 1-based frame
numbers at which it fires. -/
def gateFires (stable pos : ℕ) : List Bool → List ℕ
  | [] => []
  | f :: rest =>
    let r := captureStep stable f
    (if r.2 then [pos] else []) ++ gateFires r.1 (pos + 1) rest

/-- JS addition where `none` stands for NaN (the value produced by
`result[i] += vec[i]` when `vec[i]` is `undefined`, i.e. the index is past the
end of the array): any NaN operand makes the result NaN. -/
def jsAdd : Option ℚ → Option ℚ → Option ℚ
  | some a, some b => some (a + b)
  | _, _ => none

/-- `averageEmbeddings(vectors)` of FaceEnrollment.tsx (lines 158-173): a
result array of length `vectors[0].length` accumulates `vec[i]` over all
vectors and is then divided by `vectors.length`.  There is no length check:
an index past the end of a shorter vector contributes `undefined`, turning
that slot into NaN (`none`).  On the empty list, `vectors[0].length` throws
(`none` overall). -/
def averageEmbeddings (vectors : List (List ℚ)) : Option (List (Option ℚ)) :=
  match vectors with
  | [] => none
  | v0 :: _ =>
    some ((List.range v0.length).map (fun i =>
      (vectors.foldl (fun acc vec => jsAdd acc vec[i]?) (some 0)).map
        (fun x => x / (vectors.length : ℚ))))

/-- The square-sum/dot accumulation loop shared by `cosineDistance`
(lib/match.ts) and `cosineSimilarity` (faceMatch.ts): `Σ a[i] * b[i]`. -/
def dotAcc (a b : List ℝ) : ℝ :=
  (List.zipWith (fun x y => x * y) a b).sum

/-- `cosineDistance(a, b)` (src/lib/match.ts lines 6-20): throws on length
mismatch; otherwise `1 - dot/norm`, with `1` returned when
`sqrt(normA) * sqrt(normB)` is zero. -/
def cosineDistance (a b : List ℝ) : Except String ℝ :=
  if a.length ≠ b.length then .error "Embedding length mismatch"
  else
    let dot := dotAcc a b
    let normA := dotAcc a a
    let normB := dotAcc b b
    let norm := Real.sqrt normA * Real.sqrt normB
    if norm = 0 then .ok 1 else .ok (1 - dot / norm)

/-- `cosineSimilarity(a, b)` (faceMatch.ts, src/unnamed/part_003 lines 1-20):
throws on length mismatch; otherwise `dot/(sqrt(normA) * sqrt(normB))` with no
zero-norm guard. -/
def cosineSimilarity (a b : List ℝ) : Except String ℝ :=
  if a.length ≠ b.length then .error "Embedding length mismatch"
  else .ok (dotAcc a b / (Real.sqrt (dotAcc a a) * Real.sqrt (dotAcc b b)))

/-- Modelled from the spec (§4.4), claim side of the refinement comparison for
the aggregator: L2-normalization — divide by the Euclidean norm, returning the
vector unchanged when the norm is zero. -/
def specNormalize (v : List ℝ) : List ℝ :=
  let n := Real.sqrt ((v.map (fun x => x * x)).sum)
  if n = 0 then v else v.map (fun x => x / n)

/-- Modelled from the spec (§4.4), claim side of the refinement comparison:
the element-wise mean of a non-empty sample list. -/
def specMean (vectors : List (List ℝ)) : List ℝ :=
  (List.range (vectors.headD []).length).map (fun i =>
    (vectors.map (fun v => v.getD i 0)).sum / (vectors.length : ℝ))

/-- Modelled from the spec (§4.4), claim side of the refinement comparison:
`average` = L2-normalization of the element-wise mean. -/
def specAverage (vectors : List (List ℝ)) : List ℝ :=
  specNormalize (specMean vectors)

set_option maxRecDepth 8000

/-! ## Helper lemmas -/

theorem foldl_jsAdd_inbounds (i : ℕ) :
    ∀ (vs : List (List ℚ)) (q : ℚ), (∀ v ∈ vs, i < v.length) →
      vs.foldl (fun acc vec => jsAdd acc vec[i]?) (some q) =
        some (q + (vs.map (fun v => v.getD i 0)).sum) := by
  intro vs
  induction vs with
  | nil => intro q _; simp
  | cons v t ih =>
    intro q hlt
    have hv : i < v.length := hlt v (List.mem_cons_self v t)
    have hget : v[i]? = some (v.getD i 0) := by
      rw [List.getElem?_eq_getElem hv, List.getD_eq_getElem v 0 hv]
    simp only [List.foldl_cons, hget]
    rw [show jsAdd (some q) (some (v.getD i 0)) = some (q + v.getD i 0) from rfl]
    rw [ih (q + v.getD i 0) (fun w hw => hlt w (List.mem_cons_of_mem v hw))]
    simp [add_assoc]

theorem dotAcc_comm (a b : List ℝ) : dotAcc a b = dotAcc b a := by
  unfold dotAcc
  rw [List.zipWith_comm_of_comm (fun x y => x * y) (fun x y => mul_comm x y)]

theorem dotAcc_self_nonneg (a : List ℝ) : 0 ≤ dotAcc a a := by
  induction a with
  | nil => simp [dotAcc]
  | cons x t ih =>
    have : dotAcc (x :: t) (x :: t) = x * x + dotAcc t t := by simp [dotAcc]
    rw [this]
    exact add_nonneg (mul_self_nonneg x) ih

theorem dotAcc_self_pos (a : List ℝ) (x : ℝ) (hx : x ∈ a) (hne : x ≠ 0) :
    0 < dotAcc a a := by
  induction a with
  | nil => cases hx
  | cons y t ih =>
    have hsplit : dotAcc (y :: t) (y :: t) = y * y + dotAcc t t := by simp [dotAcc]
    rw [hsplit]
    rcases List.mem_cons.mp hx with rfl | hmem
    · exact add_pos_of_pos_of_nonneg (mul_self_pos.mpr hne) (dotAcc_self_nonneg t)
    · exact add_pos_of_nonneg_of_pos (mul_self_nonneg y) (ih hmem)

/-! ## Claims about the matching / aggregation pipeline -/

/-- C7: the capture gate's stability counter resets to zero on an absent-face
frame and increments on a present-face frame, firing exactly when the counter
reaches `REQUIRED_FRAMES` (90) and resetting on fire; the 89-present /
1-absent / 90-present sequence yields exactly one fire, on its 180th frame
(the 90th frame of the second run). -/
theorem captureGate_behavior :
    (∀ c, captureStep c false = (0, false)) ∧
    (∀ c, captureStep c true =
      if REQUIRED_FRAMES ≤ c + 1 then (0, true) else (c + 1, false)) ∧
    gateFires 0 1 (List.replicate 89 true ++ [false] ++ List.replicate 90 true) = [180] := by
  refine ⟨fun c => rfl, fun c => rfl, by decide⟩

/-- C2 (amended): mismatched-length vectors make `cosineDistance` and
`cosineSimilarity` fail fast with the length-mismatch error, but
`averageEmbeddings` performs no length check: on any non-empty sample list,
mismatched or not, it returns a numeric result (with NaN slots) instead of
raising. -/
theorem mismatch_distance_raises_average_does_not :
    (∀ a b : List ℝ, a.length ≠ b.length →
      cosineDistance a b = .error "Embedding length mismatch") ∧
    (∀ a b : List ℝ, a.length ≠ b.length →
      cosineSimilarity a b = .error "Embedding length mismatch") ∧
    (∀ (v0 : List ℚ) (rest : List (List ℚ)),
      (averageEmbeddings (v0 :: rest)).isSome = true) := by
  refine ⟨fun a b h => ?_, fun a b h => ?_, fun v0 rest => rfl⟩
  · simp [cosineDistance, h]
  · simp [cosineSimilarity, h]

theorem mismatch_distance_raises_average_does_not_witness :
    cosineDistance [(1 : ℝ)] [] = .error "Embedding length mismatch" ∧
    cosineSimilarity [(1 : ℝ)] [] = .error "Embedding length mismatch" ∧
    (averageEmbeddings [[1, 2], [3]]).isSome = true :=
  ⟨mismatch_distance_raises_average_does_not.1 [1] [] (by simp),
   mismatch_distance_raises_average_does_not.2.1 [1] [] (by simp),
   mismatch_distance_raises_average_does_not.2.2 [1, 2] [[3]]⟩

/-- C2 counterexample: `averageEmbeddings` applied to the mismatched-length
sample list `[[1, 2], [3]]` does not raise an input-contract violation; it
silently returns a numeric result whose second slot is NaN. -/
theorem average_mismatch_silent_cex :
    averageEmbeddings [[1, 2], [3]] = some [some 2, none] := by
  norm_num [averageEmbeddings, jsAdd, List.range_succ]

/-- C1 counterexample: on the single-sample list `[[2]]`, the enrollment
aggregator returns the plain mean `[2]`, while the claim (normalize the mean)
demands `[1]`; the two differ. -/
theorem average_not_normalized_cex :
    averageEmbeddings [[(2 : ℚ)]] = some [some 2] ∧
    specAverage [[(2 : ℝ)]] = [1] ∧ ((2 : ℚ) : ℝ) ≠ ((1 : ℝ)) := by
  refine ⟨by norm_num [averageEmbeddings, jsAdd, List.range_succ], ?_, by norm_num⟩
  have hmean : specMean [[(2 : ℝ)]] = [2] := by
    simp [specMean, List.range_succ]
  have hsqrt : Real.sqrt 4 = 2 := by
    rw [show (4 : ℝ) = 2 ^ 2 by norm_num, Real.sqrt_sq (by norm_num : (0 : ℝ) ≤ 2)]
  have h4 : ((([(2 : ℝ)].map (fun x => x * x)).sum) : ℝ) = 4 := by norm_num
  simp only [specAverage, hmean, specNormalize, h4, hsqrt]
  norm_num

/-- C1 (amended): for every non-empty list of equal-length embedding vectors,
the enrollment aggregator's `averageEmbeddings` returns the element-wise mean
with no L2-normalization; in particular `average([e])` returns `e` itself. -/
theorem averageEmbeddings_is_unnormalized_mean (v0 : List ℚ) (rest : List (List ℚ))
    (hlen : ∀ v ∈ v0 :: rest, v.length = v0.length) :
    averageEmbeddings (v0 :: rest) =
      some ((List.range v0.length).map (fun i =>
        some ((((v0 :: rest).map (fun v => v.getD i 0)).sum) /
          (((v0 :: rest).length : ℚ))))) := by
  unfold averageEmbeddings
  refine congrArg some (List.map_congr_left (fun i hi => ?_))
  have hi' : i < v0.length := List.mem_range.mp hi
  rw [foldl_jsAdd_inbounds i (v0 :: rest) 0
    (fun v hv => by rw [hlen v hv]; exact hi')]
  simp

theorem averageEmbeddings_is_unnormalized_mean_witness :
    averageEmbeddings [[(1 : ℚ)], [3]] = some [some 2] := by
  rw [averageEmbeddings_is_unnormalized_mean [1] [[3]]
    (by intro v hv; simp only [List.mem_cons, List.mem_singleton] at hv
        rcases hv with rfl | rfl | h
        · rfl
        · rfl
        · cases h)]
  norm_num [List.range_succ]

/-- C9: over equal-length non-empty vectors, `cosineDistance` is symmetric;
it returns 0 on any non-zero vector compared with itself; and it returns 1
(maximal distance) whenever either argument has zero norm (zero sum of
squares). -/
theorem cosineDistance_props :
    (∀ a b : List ℝ, a ≠ [] → b ≠ [] → a.length = b.length →
      cosineDistance a b = cosineDistance b a) ∧
    (∀ a : List ℝ, (∃ x ∈ a, x ≠ 0) → cosineDistance a a = .ok 0) ∧
    (∀ a b : List ℝ, a.length = b.length →
      dotAcc a a = 0 ∨ dotAcc b b = 0 → cosineDistance a b = .ok 1) := by
  refine ⟨fun a b _ _ hlen => ?_, fun a ⟨x, hx, hne⟩ => ?_, fun a b hlen hz => ?_⟩
  · have hL : ¬ (a.length ≠ b.length) := by simp [hlen]
    have hR : ¬ (b.length ≠ a.length) := by simp [hlen]
    simp only [cosineDistance, if_neg hL, if_neg hR]
    rw [dotAcc_comm a b, mul_comm (Real.sqrt (dotAcc a a)) (Real.sqrt (dotAcc b b))]
  · have hpos : 0 < dotAcc a a := dotAcc_self_pos a x hx hne
    have hnorm : Real.sqrt (dotAcc a a) * Real.sqrt (dotAcc a a) = dotAcc a a :=
      Real.mul_self_sqrt (le_of_lt hpos)
    simp only [cosineDistance, ne_eq, not_true_eq_false, if_false, hnorm]
    rw [if_neg (ne_of_gt hpos), div_self (ne_of_gt hpos)]
    simp
  · have hnorm : Real.sqrt (dotAcc a a) * Real.sqrt (dotAcc b b) = 0 := by
      rcases hz with h | h <;> rw [h] <;> simp [Real.sqrt_zero]
    simp [cosineDistance, hlen, hnorm]

/-! ## Blink hysteresis (C3, C4) -/

/-- Blink sub-state after the subject has been seen with open eyes. -/
def sOpen : LState := { initState with hasSeenEyesOpen := true }

/-- Blink sub-state after a subsequent below-close-threshold reading. -/
def sClosed : LState := { sOpen with eyeClosed := true }

/-- Blink sub-state after the confirming re-open reading: blink confirmed and
the challenge advanced to index 1. -/
def sDone : LState := { sClosed with blinkConfirmed := true, challengeIndex := 1 }

theorem blinkStep_no_close (s : LState) (e : ℝ) (he : ¬ e < BLINK_CLOSE_THRESHOLD)
    (h1 : s.eyeClosed = false) (h2 : s.blinkConfirmed = false) :
    (blinkStep s e).eyeClosed = false ∧ (blinkStep s e).blinkConfirmed = false ∧
    (blinkStep s e).challengeIndex = s.challengeIndex := by
  by_cases h0 : e ≤ 0
  · simp [blinkStep, h0, h1, h2]
  · by_cases hop : BLINK_OPEN_THRESHOLD < e <;>
      simp [blinkStep, h0, h1, h2, hop, he]

theorem blink_fold_inv (ears : List ℝ) :
    ∀ s : LState, (∀ e ∈ ears, ¬ e < BLINK_CLOSE_THRESHOLD) →
      s.eyeClosed = false → s.blinkConfirmed = false →
      (ears.foldl blinkStep s).eyeClosed = false ∧
      (ears.foldl blinkStep s).blinkConfirmed = false ∧
      (ears.foldl blinkStep s).challengeIndex = s.challengeIndex := by
  induction ears with
  | nil => intro s _ h1 h2; exact ⟨h1, h2, rfl⟩
  | cons e t ih =>
    intro s hall h1 h2
    have he := hall e (List.mem_cons_self e t)
    have hstep := blinkStep_no_close s e he h1 h2
    have := ih (blinkStep s e) (fun x hx => hall x (List.mem_cons_of_mem e hx))
      hstep.1 hstep.2.1
    exact ⟨this.1, this.2.1, by rw [List.foldl_cons] at *; rw [this.2.2, hstep.2.2]⟩

theorem blinkStep_confirmed_fix (s : LState) (e : ℝ) (h : s.blinkConfirmed = true) :
    blinkStep s e = s := by
  by_cases h0 : e ≤ 0
  · simp [blinkStep, h0]
  · simp [blinkStep, h0, h]

theorem blink_fold_confirmed_fix (l : List ℝ) :
    ∀ s : LState, s.blinkConfirmed = true → l.foldl blinkStep s = s := by
  induction l with
  | nil => intro s _; rfl
  | cons e t ih =>
    intro s h
    rw [List.foldl_cons, blinkStep_confirmed_fix s e h, ih s h]

theorem blinkStep_init_open : blinkStep initState ((30 : ℝ)/100) = sOpen := by
  norm_num [blinkStep, initState, sOpen, BLINK_OPEN_THRESHOLD, BLINK_CLOSE_THRESHOLD]

theorem blinkStep_sOpen_open : blinkStep sOpen ((30 : ℝ)/100) = sOpen := by
  norm_num [blinkStep, initState, sOpen, BLINK_OPEN_THRESHOLD, BLINK_CLOSE_THRESHOLD]

theorem blinkStep_sOpen_close : blinkStep sOpen ((18 : ℝ)/100) = sClosed := by
  norm_num [blinkStep, initState, sOpen, sClosed, BLINK_OPEN_THRESHOLD, BLINK_CLOSE_THRESHOLD]

theorem blinkStep_sClosed_open : blinkStep sClosed ((30 : ℝ)/100) = sDone := by
  norm_num [blinkStep, initState, sOpen, sClosed, sDone, advance, CHALLENGES,
    BLINK_OPEN_THRESHOLD, BLINK_CLOSE_THRESHOLD]

theorem blink_fold_rep_sOpen (k : ℕ) :
    (List.replicate k ((30 : ℝ)/100)).foldl blinkStep sOpen = sOpen := by
  induction k with
  | zero => rfl
  | succ k ih => rw [List.replicate_succ, List.foldl_cons, blinkStep_sOpen_open, ih]

theorem blink_fold_rep_init (m : ℕ) :
    (List.replicate m ((30 : ℝ)/100)).foldl blinkStep initState =
      if m = 0 then initState else sOpen := by
  cases m with
  | zero => rfl
  | succ m =>
    rw [List.replicate_succ, List.foldl_cons, blinkStep_init_open,
      blink_fold_rep_sOpen]
    simp

/-- C3: over any sequence of evaluated EAR readings none of which falls below
the close threshold (0.22), the blink never confirms and the challenge index
never leaves the Blink challenge (index 0). -/
theorem blink_never_confirms_without_close (ears : List ℝ)
    (h : ∀ e ∈ ears, ¬ e < BLINK_CLOSE_THRESHOLD) :
    (ears.foldl blinkStep initState).blinkConfirmed = false ∧
    (ears.foldl blinkStep initState).challengeIndex = 0 := by
  have := blink_fold_inv ears initState h rfl rfl
  exact ⟨this.2.1, this.2.2⟩

theorem blink_never_confirms_without_close_witness :
    (∀ e ∈ [(50 : ℝ)/100], ¬ e < BLINK_CLOSE_THRESHOLD) ∧
    (([(50 : ℝ)/100].foldl blinkStep initState).blinkConfirmed = false ∧
     ([(50 : ℝ)/100].foldl blinkStep initState).challengeIndex = 0) := by
  have h : ∀ e ∈ [(50 : ℝ)/100], ¬ e < BLINK_CLOSE_THRESHOLD := by
    intro e he
    simp only [List.mem_singleton] at he
    subst he
    norm_num [BLINK_CLOSE_THRESHOLD]
  exact ⟨h, blink_never_confirms_without_close [(50 : ℝ)/100] h⟩

/-- C4: from the fresh blink sub-state, the EAR sequence open(0.30),
closed(0.18), open(0.30) confirms the blink and advances the challenge index
exactly once (to 1), and any number of extra 0.30 readings before or after
leaves that outcome unchanged. -/
theorem blink_full_cycle_advances_once (m n : ℕ) :
    ((List.replicate m ((30 : ℝ)/100) ++ [(30 : ℝ)/100, (18 : ℝ)/100, (30 : ℝ)/100] ++
        List.replicate n ((30 : ℝ)/100)).foldl blinkStep initState).blinkConfirmed = true ∧
    ((List.replicate m ((30 : ℝ)/100) ++ [(30 : ℝ)/100, (18 : ℝ)/100, (30 : ℝ)/100] ++
        List.replicate n ((30 : ℝ)/100)).foldl blinkStep initState).challengeIndex = 1 := by
  rw [List.foldl_append, List.foldl_append, blink_fold_rep_init]
  have hmid : ∀ s : LState, blinkStep s ((30 : ℝ)/100) = sOpen →
      ([( 30 : ℝ)/100, (18 : ℝ)/100, (30 : ℝ)/100].foldl blinkStep s) = sDone := by
    intro s hs
    rw [List.foldl_cons, hs, List.foldl_cons, blinkStep_sOpen_close,
      List.foldl_cons, blinkStep_sClosed_open, List.foldl_nil]
  have hfin : ∀ s : LState, s = sDone →
      (List.replicate n ((30 : ℝ)/100)).foldl blinkStep s = sDone := by
    intro s hs; rw [hs]; exact blink_fold_confirmed_fix _ sDone rfl
  by_cases hm : m = 0
  · rw [if_pos hm, hfin _ (hmid initState blinkStep_init_open)]
    exact ⟨rfl, rfl⟩
  · rw [if_neg hm, hfin _ (hmid sOpen blinkStep_sOpen_open)]
    exact ⟨rfl, rfl⟩

/-! ## Turn debounce (C5) -/

/-- The "turned" zone of `checkTurn`: for `turn_left` the nose offset is past
`0.55 + TURN_THRESHOLD` toward image right, for `turn_right` past
`0.45 - TURN_THRESHOLD` toward image left (part_007 lines 384-385). -/
def turnedZone : Option Challenge → ℚ → Prop
  | some .turn_left, o => 55 / 100 + TURN_THRESHOLD < o
  | some .turn_right, o => o < 45 / 100 - TURN_THRESHOLD
  | _, _ => False

theorem checkTurnOffset_turned (dir : Option Challenge)
    (hdir : dir = some Challenge.turn_left ∨ dir = some Challenge.turn_right)
    (o : ℚ) (ho : turnedZone dir o) (s : LState) :
    checkTurnOffset dir o s =
      if TURN_HOLD_FRAMES ≤ s.turnHoldFrames + 1 then
        advance { s with turnHoldFrames := 0 }
      else { s with turnHoldFrames := s.turnHoldFrames + 1 } := by
  rcases hdir with rfl | rfl
  · simp only [turnedZone] at ho
    simp [checkTurnOffset, ho]
  · simp only [turnedZone] at ho
    simp [checkTurnOffset, ho]

theorem checkTurnOffset_dead (dir : Option Challenge)
    (hdir : dir = some Challenge.turn_left ∨ dir = some Challenge.turn_right)
    (o : ℚ) (ho : ¬ turnedZone dir o) (s : LState) :
    checkTurnOffset dir o s = { s with turnHoldFrames := 0 } := by
  rcases hdir with rfl | rfl
  · simp only [turnedZone] at ho
    simp [checkTurnOffset, ho]
  · simp only [turnedZone] at ho
    simp [checkTurnOffset, ho]

theorem turn_fold_accumulate (dir : Option Challenge)
    (hdir : dir = some Challenge.turn_left ∨ dir = some Challenge.turn_right) :
    ∀ (offs : List ℚ) (s : LState), (∀ o ∈ offs, turnedZone dir o) →
      s.turnHoldFrames + offs.length < TURN_HOLD_FRAMES →
      offs.foldl (fun t o => checkTurnOffset dir o t) s =
        { s with turnHoldFrames := s.turnHoldFrames + offs.length } := by
  intro offs
  induction offs with
  | nil => intro s _ _; simp
  | cons o t ih =>
    intro s hall hlt
    have ho := hall o (List.mem_cons_self o t)
    have hnot : ¬ TURN_HOLD_FRAMES ≤ s.turnHoldFrames + 1 := by
      simp only [List.length_cons] at hlt; omega
    rw [List.foldl_cons, checkTurnOffset_turned dir hdir o ho s, if_neg hnot,
      ih { s with turnHoldFrames := s.turnHoldFrames + 1 }
        (fun x hx => hall x (List.mem_cons_of_mem o hx))
        (by simp only [List.length_cons] at hlt; simpa using by omega)]
    simp only [List.length_cons]
    congr 1
    omega

/-- C5: for each directional turn challenge, a frame whose offset is back in
the dead zone resets the hold counter to zero without advancing; the index
can only change on a turned-zone frame with `TURN_HOLD_FRAMES` (12) reached;
a turned-zone frame below the threshold merely increments the hold counter;
and 11 turned frames followed by one neutral frame leave zero held frames and
an unchanged index. -/
theorem turn_hold_debounce (dir : Option Challenge)
    (hdir : dir = some Challenge.turn_left ∨ dir = some Challenge.turn_right) :
    (∀ (s : LState) (o : ℚ), ¬ turnedZone dir o →
      (checkTurnOffset dir o s).turnHoldFrames = 0 ∧
      (checkTurnOffset dir o s).challengeIndex = s.challengeIndex) ∧
    (∀ (s : LState) (o : ℚ),
      (checkTurnOffset dir o s).challengeIndex ≠ s.challengeIndex →
      turnedZone dir o ∧ TURN_HOLD_FRAMES ≤ s.turnHoldFrames + 1) ∧
    (∀ (s : LState) (o : ℚ), turnedZone dir o →
      s.turnHoldFrames + 1 < TURN_HOLD_FRAMES →
      checkTurnOffset dir o s = { s with turnHoldFrames := s.turnHoldFrames + 1 }) ∧
    (∀ (s : LState) (offs : List ℚ) (neutral : ℚ), s.turnHoldFrames = 0 →
      offs.length = TURN_HOLD_FRAMES - 1 → (∀ o ∈ offs, turnedZone dir o) →
      ¬ turnedZone dir neutral →
      ((offs ++ [neutral]).foldl (fun t o => checkTurnOffset dir o t) s).turnHoldFrames = 0 ∧
      ((offs ++ [neutral]).foldl (fun t o => checkTurnOffset dir o t) s).challengeIndex =
        s.challengeIndex) := by
  refine ⟨fun s o ho => ?_, fun s o hne => ?_, fun s o ho hlt => ?_,
    fun s offs neutral hhold hlen hall hneu => ?_⟩
  · rw [checkTurnOffset_dead dir hdir o ho s]
    exact ⟨rfl, rfl⟩
  · by_cases ho : turnedZone dir o
    · rw [checkTurnOffset_turned dir hdir o ho s] at hne
      by_cases hth : TURN_HOLD_FRAMES ≤ s.turnHoldFrames + 1
      · exact ⟨ho, hth⟩
      · exact absurd rfl (by rwa [if_neg hth] at hne)
    · rw [checkTurnOffset_dead dir hdir o ho s] at hne
      exact absurd rfl hne
  · rw [checkTurnOffset_turned dir hdir o ho s, if_neg (by omega)]
  · rw [List.foldl_append,
      turn_fold_accumulate dir hdir offs s hall
        (by rw [hlen, hhold]; simp [TURN_HOLD_FRAMES]),
      List.foldl_cons, List.foldl_nil,
      checkTurnOffset_dead dir hdir neutral hneu _]
    exact ⟨rfl, rfl⟩

theorem turn_hold_debounce_witness :
    ((checkTurnOffset (some Challenge.turn_left) (1/2) initState).turnHoldFrames = 0 ∧
     (checkTurnOffset (some Challenge.turn_left) (1/2) initState).challengeIndex =
       initState.challengeIndex) ∧
    (((List.replicate 11 ((8 : ℚ)/10) ++ [(1 : ℚ)/2]).foldl
        (fun t o => checkTurnOffset (some Challenge.turn_left) o t) initState).turnHoldFrames = 0 ∧
     ((List.replicate 11 ((8 : ℚ)/10) ++ [(1 : ℚ)/2]).foldl
        (fun t o => checkTurnOffset (some Challenge.turn_left) o t) initState).challengeIndex =
       initState.challengeIndex) := by
  have hdir : some Challenge.turn_left = some Challenge.turn_left ∨
      some Challenge.turn_left = some Challenge.turn_right := Or.inl rfl
  have hneu : ¬ turnedZone (some Challenge.turn_left) (1/2) := by
    simp only [turnedZone, TURN_THRESHOLD]
    norm_num
  refine ⟨(turn_hold_debounce _ hdir).1 initState (1/2) hneu, ?_⟩
  refine (turn_hold_debounce _ hdir).2.2.2 initState (List.replicate 11 ((8 : ℚ)/10))
    ((1 : ℚ)/2) rfl (by simp [TURN_HOLD_FRAMES]) ?_ hneu
  intro o ho
  rw [List.eq_of_mem_replicate ho]
  simp only [turnedZone, TURN_THRESHOLD]
  norm_num

/-! ## Face-too-far gating (C10) -/

/-- C10: on any evaluated frame whose face bounds have width below
`DETECT_WIDTH * FACE_TOO_FAR_RATIO` (28% of 640), the tick sets the
face-too-far flag and both the blink check and the turn check return
immediately: every challenge-relevant state component (blink flags, turn hold
counter, challenge index and session status) is unchanged, for every active
challenge. -/
theorem faceTooFar_blocks_challenges (active : Option Challenge)
    (points : List Point) (s : LState) (b : Bounds)
    (hb : getFaceBounds points = some b)
    (hw : b.width < DETECT_WIDTH * FACE_TOO_FAR_RATIO) :
    challengeState (processTick active points s) = challengeState s := by
  have hdec : decide (b.width < DETECT_WIDTH * FACE_TOO_FAR_RATIO) = true :=
    decide_eq_true hw
  by_cases ha : active = some Challenge.blink
  · simp [processTick, hb, hdec, ha, checkBlink, challengeState]
  · simp [processTick, hb, hdec, ha, checkTurn, challengeState]

theorem faceTooFar_blocks_challenges_witness :
    challengeState (processTick none [⟨0, 0⟩] initState) = challengeState initState := by
  have hb : getFaceBounds [(⟨0, 0⟩ : Point)] =
      some { minX := 0, minY := 0, maxX := 0, maxY := 0, width := 0, height := 0,
             centerX := 0, centerY := 0 } := by
    norm_num [getFaceBounds, boundsFold]
  exact faceTooFar_blocks_challenges none [⟨0, 0⟩] initState _ hb
    (by norm_num [DETECT_WIDTH, FACE_TOO_FAR_RATIO])

/-! ## Index monotonicity and frozen terminal state (C6) -/

theorem advance_challengeIndex (s : LState) :
    (advance s).challengeIndex = s.challengeIndex + 1 := by
  by_cases h : CHALLENGES.length ≤ s.challengeIndex + 1 <;> simp [advance, h]

theorem advance_faceTooFar (s : LState) :
    (advance s).faceTooFar = s.faceTooFar := by
  by_cases h : CHALLENGES.length ≤ s.challengeIndex + 1 <;> simp [advance, h]

theorem blinkStep_index_mono (s : LState) (e : ℝ) :
    s.challengeIndex ≤ (blinkStep s e).challengeIndex := by
  by_cases h0 : e ≤ 0
  · simp [blinkStep, h0]
  by_cases hc : s.blinkConfirmed
  · simp [blinkStep, h0, hc]
  by_cases hop : BLINK_OPEN_THRESHOLD < e <;>
    by_cases hcl : e < BLINK_CLOSE_THRESHOLD <;>
      by_cases hseen : s.hasSeenEyesOpen <;>
        by_cases hclosed : s.eyeClosed <;>
          simp [blinkStep, h0, hc, hop, hcl, hseen, hclosed, advance_challengeIndex]

theorem checkBlink_index_mono (points : List Point) (s : LState) :
    s.challengeIndex ≤ (checkBlink points s).challengeIndex := by
  by_cases h : s.faceTooFar
  · simp [checkBlink, h]
  · simp only [checkBlink, h, if_false, Bool.false_eq_true]
    exact blinkStep_index_mono s (earOf points)

theorem checkTurnOffset_index_mono (dir : Option Challenge) (o : ℚ) (s : LState) :
    s.challengeIndex ≤ (checkTurnOffset dir o s).challengeIndex := by
  by_cases hl : dir = some Challenge.turn_left <;>
    by_cases hr : dir = some Challenge.turn_right <;>
      by_cases hleft : o < 45 / 100 - TURN_THRESHOLD <;>
        by_cases hright : 55 / 100 + TURN_THRESHOLD < o <;>
          by_cases hth : TURN_HOLD_FRAMES ≤ s.turnHoldFrames + 1 <;>
            simp [checkTurnOffset, hl, hr, hleft, hright, hth, advance_challengeIndex]

theorem checkTurn_index_mono (points : List Point) (dir : Option Challenge) (s : LState) :
    s.challengeIndex ≤ (checkTurn points dir s).challengeIndex := by
  by_cases h : s.faceTooFar
  · simp [checkTurn, h]
  · simp only [checkTurn, h, Bool.false_eq_true, if_false]
    split
    · exact le_rfl
    · exact checkTurnOffset_index_mono dir _ s

theorem processTick_index_mono (active : Option Challenge) (points : List Point)
    (s : LState) : s.challengeIndex ≤ (processTick active points s).challengeIndex := by
  have key : ∀ t : LState, t.challengeIndex = s.challengeIndex →
      s.challengeIndex ≤ (if active = some Challenge.blink then checkBlink points t
        else checkTurn points active t).challengeIndex := by
    intro t ht
    by_cases ha : active = some Challenge.blink
    · rw [if_pos ha, ← ht]; exact checkBlink_index_mono points t
    · rw [if_neg ha, ← ht]; exact checkTurn_index_mono points active t
  rcases hgb : getFaceBounds points with _ | b <;>
    simp only [processTick, hgb] <;> exact key _ rfl

theorem detectStep_index_mono (s : DState) (f : Option (List Point)) :
    s.inner.challengeIndex ≤ (detectStep s f).inner.challengeIndex := by
  unfold detectStep
  by_cases hskip : skipInference s = true
  · simp only [hskip, if_true]
    rcases hkp : s.lastKeypoints with _ | pts
    · simp
    · by_cases hlen : pts.length < 380 <;> simp [hlen, processTick_index_mono]
  · simp only [hskip, if_false, Bool.false_eq_true]
    rcases f with _ | kp
    · simp
    · by_cases hlen : kp.length < 380 <;> simp [hlen, processTick_index_mono]

theorem checkTurnOffset_none (o : ℚ) (s : LState) :
    checkTurnOffset none o s = s := by
  simp [checkTurnOffset]

theorem checkTurn_none (points : List Point) (s : LState) :
    checkTurn points none s = s := by
  by_cases h : s.faceTooFar
  · simp [checkTurn, h]
  · simp only [checkTurn, h, Bool.false_eq_true, if_false]
    split
    · rfl
    · exact checkTurnOffset_none _ s

theorem processTick_none_ccomp (points : List Point) (s : LState) :
    challengeState (processTick none points s) = challengeState s := by
  rcases hgb : getFaceBounds points with _ | b <;>
    simp [processTick, hgb, checkTurn_none, challengeState]

theorem three_le_getElem_none (i : ℕ) (h : 3 ≤ i) : CHALLENGES[i]? = none :=
  List.getElem?_eq_none (by simpa [CHALLENGES] using h)

/-- C6: the challenge sequence is the fixed list [Blink, TurnLeft, TurnRight];
the challenge index never decreases across a detect-loop step; the third
completion (`advance` at index 2) moves the index to 3 and the session status
to Passed; and once the index has reached the end of the sequence, processing
further frames leaves every challenge-relevant component unchanged (the index
is frozen in the terminal state). -/
theorem challenge_index_monotone_and_terminal :
    CHALLENGES = [Challenge.blink, Challenge.turn_left, Challenge.turn_right] ∧
    (∀ (s : DState) (f : Option (List Point)),
      s.inner.challengeIndex ≤ (detectStep s f).inner.challengeIndex) ∧
    (∀ s : LState, s.challengeIndex = 2 →
      (advance s).challengeIndex = 3 ∧ (advance s).status = .passed) ∧
    (∀ (s : DState) (f : Option (List Point)), 3 ≤ s.inner.challengeIndex →
      challengeState (detectStep s f).inner = challengeState s.inner) := by
  refine ⟨rfl, detectStep_index_mono, fun s h2 => ?_, fun s f h3 => ?_⟩
  · simp [advance, h2, CHALLENGES]
  · have hact : CHALLENGES[s.inner.challengeIndex]? = none :=
      three_le_getElem_none _ h3
    have hskip : skipInference s = false := by
      simp [skipInference, hact]
    rcases f with _ | kp
    · simp [detectStep, hskip, hact, challengeState]
    · by_cases hlen : kp.length < 380
      · simp [detectStep, hskip, hact, hlen, challengeState]
      · simp [detectStep, hskip, hact, hlen, processTick_none_ccomp]

theorem challenge_index_monotone_and_terminal_witness :
    ((advance { initState with challengeIndex := 2 }).challengeIndex = 3 ∧
     (advance { initState with challengeIndex := 2 }).status = .passed) ∧
    challengeState (detectStep
      { inner := { initState with challengeIndex := 3 }, lastKeypoints := none,
        frameCount := 0 } none).inner =
      challengeState { initState with challengeIndex := 3 } :=
  ⟨challenge_index_monotone_and_terminal.2.2.1 _ rfl,
   challenge_index_monotone_and_terminal.2.2.2 _ none (by norm_num)⟩

/-! ## Unusable frames are ignored (C8) -/

/-- The face-too-far flag value that `processTick` computes from a keypoint
set (false on an empty set, where `getFaceBounds` yields none and the flag is
left as-is). -/
def faceTooFarOf (points : List Point) : Bool :=
  match getFaceBounds points with
  | some b => decide (b.width < DETECT_WIDTH * FACE_TOO_FAR_RATIO)
  | none => false

theorem foldBounds_some : ∀ (l : List Point) (p : ℚ × ℚ × ℚ × ℚ),
    ∃ q, l.foldl boundsFold (some p) = some q := by
  intro l
  induction l with
  | nil => intro p; exact ⟨p, rfl⟩
  | cons y t ih =>
    intro p
    obtain ⟨a, b, c, d⟩ := p
    simpa [boundsFold] using ih (min a y.x, min b y.y, max c y.x, max d y.y)

theorem getFaceBounds_isSome (points : List Point) (h : points ≠ []) :
    ∃ b, getFaceBounds points = some b := by
  rcases points with _ | ⟨x, t⟩
  · exact absurd rfl h
  · unfold getFaceBounds
    obtain ⟨⟨a, b, c, d⟩, hq⟩ := foldBounds_some t (x.x, x.y, x.x, x.y)
    rw [List.foldl_cons, show boundsFold none x = some (x.x, x.y, x.x, x.y) from rfl, hq]
    exact ⟨_, rfl⟩

theorem processTick_eq (active : Option Challenge) (points : List Point) (s : LState)
    (h : points ≠ []) :
    processTick active points s =
      if active = some Challenge.blink then
        checkBlink points { s with faceTooFar := faceTooFarOf points }
      else checkTurn points active { s with faceTooFar := faceTooFarOf points } := by
  obtain ⟨b, hb⟩ := getFaceBounds_isSome points h
  simp only [processTick, faceTooFarOf, hb]

theorem eta_faceTooFar (s : LState) (b : Bool) (h : s.faceTooFar = b) :
    ({ s with faceTooFar := b } : LState) = s := by
  cases s
  cases h
  rfl

theorem blinkStep_faceTooFar (s : LState) (e : ℝ) :
    (blinkStep s e).faceTooFar = s.faceTooFar := by
  by_cases h0 : e ≤ 0
  · simp [blinkStep, h0]
  by_cases hc : s.blinkConfirmed
  · simp [blinkStep, h0, hc]
  by_cases hop : BLINK_OPEN_THRESHOLD < e <;>
    by_cases hcl : e < BLINK_CLOSE_THRESHOLD <;>
      by_cases hseen : s.hasSeenEyesOpen <;>
        by_cases hclosed : s.eyeClosed <;>
          simp [blinkStep, h0, hc, hop, hcl, hseen, hclosed, advance_faceTooFar]

theorem open_not_close (e : ℝ) (hop : BLINK_OPEN_THRESHOLD < e) :
    ¬ e < BLINK_CLOSE_THRESHOLD := by
  simp only [BLINK_OPEN_THRESHOLD, BLINK_CLOSE_THRESHOLD] at *
  intro hcl
  linarith

theorem blinkStep_idem (s : LState) (e : ℝ)
    (h : (blinkStep s e).challengeIndex = s.challengeIndex) :
    blinkStep (blinkStep s e) e = blinkStep s e := by
  by_cases h0 : e ≤ 0
  · have hs : blinkStep s e = s := by simp [blinkStep, h0]
    rw [hs]
    exact hs
  by_cases hc : s.blinkConfirmed
  · have hs : blinkStep s e = s := by simp [blinkStep, h0, hc]
    rw [hs]
    exact hs
  by_cases hop : BLINK_OPEN_THRESHOLD < e
  · have hcl := open_not_close e hop
    by_cases hclosed : s.eyeClosed
    · exfalso
      have : (blinkStep s e).challengeIndex = s.challengeIndex + 1 := by
        simp [blinkStep, h0, hc, hop, hcl, hclosed, advance_challengeIndex]
      omega
    · have ht : blinkStep s e = { s with hasSeenEyesOpen := true } := by
        simp [blinkStep, h0, hc, hop, hcl, hclosed]
      rw [ht]
      simp [blinkStep, h0, hc, hop, hcl, hclosed]
  · by_cases hcl : e < BLINK_CLOSE_THRESHOLD <;> by_cases hseen : s.hasSeenEyesOpen
    · have ht : blinkStep s e = { s with eyeClosed := true } := by
        simp [blinkStep, h0, hc, hop, hcl, hseen]
      rw [ht]
      simp [blinkStep, h0, hc, hop, hcl, hseen]
    · have ht : blinkStep s e = s := by simp [blinkStep, h0, hc, hop, hcl, hseen]
      rw [ht]
      exact ht
    · have ht : blinkStep s e = s := by simp [blinkStep, h0, hc, hop, hcl, hseen]
      rw [ht]
      exact ht
    · have ht : blinkStep s e = s := by simp [blinkStep, h0, hc, hop, hcl, hseen]
      rw [ht]
      exact ht

theorem checkBlink_preserves_faceTooFar (points : List Point) (s : LState) :
    (checkBlink points s).faceTooFar = s.faceTooFar := by
  by_cases h : s.faceTooFar
  · simp [checkBlink, h]
  · have hfalse : s.faceTooFar = false := by simpa using h
    simp only [checkBlink, hfalse, Bool.false_eq_true, if_false]
    rw [blinkStep_faceTooFar, hfalse]

theorem checkBlink_idem (points : List Point) (s : LState)
    (h : (checkBlink points s).challengeIndex = s.challengeIndex) :
    checkBlink points (checkBlink points s) = checkBlink points s := by
  by_cases htf : s.faceTooFar
  · have hs : checkBlink points s = s := by simp [checkBlink, htf]
    rw [hs]
    exact hs
  · have h1 : checkBlink points s = blinkStep s (earOf points) := by
      simp [checkBlink, htf]
    have hfalse : s.faceTooFar = false := by simpa using htf
    have htf2 : (blinkStep s (earOf points)).faceTooFar = false := by
      rw [blinkStep_faceTooFar]
      exact hfalse
    rw [h1]
    simp only [checkBlink, htf2, Bool.false_eq_true, if_false]
    exact blinkStep_idem s (earOf points) (by rw [h1] at h; exact h)

theorem blink_challenge_index (i : ℕ) (h : CHALLENGES[i]? = some Challenge.blink) :
    i = 0 := by
  match i with
  | 0 => rfl
  | 1 => simp [CHALLENGES] at h
  | 2 => simp [CHALLENGES] at h
  | (n + 3) =>
    rw [three_le_getElem_none (n + 3) (by omega)] at h
    cases h

/-- The invariant that makes skip frames harmless: any cached keypoint set is
full-length, and whenever the blink challenge is active, re-processing the
cached keypoints only rewrites the face-too-far flag (the previous tick
already applied them, and the blink hysteresis is idempotent). -/
def CacheInv (s : DState) : Prop :=
  (∀ kp, s.lastKeypoints = some kp → 380 ≤ kp.length) ∧
  (∀ kp, s.lastKeypoints = some kp →
    CHALLENGES[s.inner.challengeIndex]? = some Challenge.blink →
    processTick (some Challenge.blink) kp s.inner =
      { s.inner with faceTooFar := faceTooFarOf kp })

theorem cacheInv_init : CacheInv initDState :=
  ⟨fun _ h => Option.noConfusion h, fun _ h => Option.noConfusion h⟩

theorem detectStep_skip_eq (s : DState) (f : Option (List Point))
    (hskip : skipInference s = true)
    (kp : List Point) (hkp : s.lastKeypoints = some kp)
    (hlen : ¬ kp.length < 380)
    (hact : CHALLENGES[s.inner.challengeIndex]? = some Challenge.blink)
    (hproc : processTick (some Challenge.blink) kp s.inner =
      { s.inner with faceTooFar := faceTooFarOf kp }) :
    detectStep s f =
      { s with frameCount := s.frameCount + 1,
               inner := { s.inner with faceTooFar := faceTooFarOf kp } } := by
  simp only [detectStep, hskip, if_true, hkp, hlen, if_false, hact, hproc]

theorem detectStep_noskip_none (s : DState) (hskip : skipInference s = false) :
    detectStep s none =
      { s with frameCount := s.frameCount + 1, lastKeypoints := none,
               inner := { s.inner with faceTooFar := false } } := by
  simp [detectStep, hskip]

theorem detectStep_noskip_short (s : DState) (kp : List Point)
    (hskip : skipInference s = false) (hlen : kp.length < 380) :
    detectStep s (some kp) = { s with frameCount := s.frameCount + 1 } := by
  simp [detectStep, hskip, hlen]

theorem detectStep_noskip_usable (s : DState) (kp : List Point)
    (hskip : skipInference s = false) (hlen : ¬ kp.length < 380) :
    detectStep s (some kp) =
      { s with frameCount := s.frameCount + 1, lastKeypoints := some kp,
               inner := processTick (CHALLENGES[s.inner.challengeIndex]?) kp s.inner } := by
  simp [detectStep, hskip, hlen]

theorem cacheInv_step (s : DState) (hInv : CacheInv s) (f : Option (List Point)) :
    CacheInv (detectStep s f) := by
  by_cases hskip : skipInference s = true
  · have hcomp := hskip
    simp only [skipInference, Bool.and_eq_true, decide_eq_true_eq,
      Option.isSome_iff_exists] at hcomp
    obtain ⟨⟨hact, hodd⟩, kp, hkp⟩ := hcomp
    have h380 := hInv.1 kp hkp
    have hlen : ¬ kp.length < 380 := by omega
    have hne : kp ≠ [] := by
      intro hnil
      rw [hnil] at h380
      simp at h380
    have hproc := hInv.2 kp hkp hact
    rw [detectStep_skip_eq s f hskip kp hkp hlen hact hproc]
    refine ⟨?_, ?_⟩
    · intro kp' hkp'
      have hkp2 : s.lastKeypoints = some kp' := hkp'
      rw [hkp] at hkp2
      injection hkp2 with he
      subst he
      exact h380
    · intro kp' hkp' hact'
      have hkp2 : s.lastKeypoints = some kp' := hkp'
      rw [hkp] at hkp2
      injection hkp2 with he
      subst he
      have hu : ({ s.inner with faceTooFar := faceTooFarOf kp } : LState).faceTooFar =
          faceTooFarOf kp := rfl
      rw [processTick_eq _ _ _ hne, if_pos rfl, eta_faceTooFar _ _ hu]
      have h2 := hproc
      rw [processTick_eq _ _ _ hne, if_pos rfl] at h2
      exact h2
  · have hskip' : skipInference s = false := by simpa using hskip
    rcases f with _ | kp
    · rw [detectStep_noskip_none s hskip']
      exact ⟨fun _ h => Option.noConfusion h, fun _ h => Option.noConfusion h⟩
    · by_cases hlen : kp.length < 380
      · rw [detectStep_noskip_short s kp hskip' hlen]
        exact hInv
      · have h380 : 380 ≤ kp.length := by omega
        have hne : kp ≠ [] := by
          intro hnil
          rw [hnil] at h380
          simp at h380
        rw [detectStep_noskip_usable s kp hskip' hlen]
        refine ⟨?_, ?_⟩
        · intro kp' hkp'
          have hkp2 : some kp = some kp' := hkp'
          injection hkp2 with he
          subst he
          exact h380
        · intro kp' hkp' hact'
          have hkp2 : some kp = some kp' := hkp'
          injection hkp2 with he
          subst he
          have hidx0 : (processTick (CHALLENGES[s.inner.challengeIndex]?) kp
              s.inner).challengeIndex = 0 := blink_challenge_index _ hact'
          have hmono := processTick_index_mono (CHALLENGES[s.inner.challengeIndex]?) kp s.inner
          have hsidx : s.inner.challengeIndex = 0 := by omega
          have hact : CHALLENGES[s.inner.challengeIndex]? = some Challenge.blink := by
            rw [hsidx]
            rfl
          rw [hact] at hidx0 ⊢
          have hW : processTick (some Challenge.blink) kp s.inner =
              checkBlink kp { s.inner with faceTooFar := faceTooFarOf kp } := by
            rw [processTick_eq _ _ _ hne, if_pos rfl]
          rw [hW] at hidx0 ⊢
          have hpre : (checkBlink kp
              ({ s.inner with faceTooFar := faceTooFarOf kp } : LState)).challengeIndex =
              ({ s.inner with faceTooFar := faceTooFarOf kp } : LState).challengeIndex := by
            rw [hidx0]
            exact hsidx.symm
          have hidem := checkBlink_idem kp _ hpre
          have htfW : (checkBlink kp
              ({ s.inner with faceTooFar := faceTooFarOf kp } : LState)).faceTooFar =
              faceTooFarOf kp := by
            rw [checkBlink_preserves_faceTooFar]
          rw [processTick_eq _ _ _ hne, if_pos rfl, eta_faceTooFar _ _ htfW]
          exact hidem

theorem cacheInv_reachable (s : DState) (h : Reachable s) : CacheInv s := by
  obtain ⟨frames, rfl⟩ := h
  induction frames using List.reverseRecOn with
  | nil => exact cacheInv_init
  | append_singleton fs f ih =>
    rw [List.foldl_append, List.foldl_cons, List.foldl_nil]
    exact cacheInv_step _ ih f

/-- C8: in any reachable session state, a frame without a usable face (the
detector reports no face, or fewer than 380 landmark points) leaves every
challenge-relevant state component — the seen-open and eyes-closed blink
flags, the blink-confirmed flag, the turn hold counter, the challenge index
and the session status — exactly as it was, so such a frame never causes a
challenge to pass. -/
theorem unusable_frame_preserves_challenge_state (s : DState) (hs : Reachable s)
    (f : Option (List Point))
    (hf : f = none ∨ ∃ kp, f = some kp ∧ kp.length < 380) :
    challengeState (detectStep s f).inner = challengeState s.inner := by
  have hInv := cacheInv_reachable s hs
  by_cases hskip : skipInference s = true
  · have hcomp := hskip
    simp only [skipInference, Bool.and_eq_true, decide_eq_true_eq,
      Option.isSome_iff_exists] at hcomp
    obtain ⟨⟨hact, hodd⟩, kp, hkp⟩ := hcomp
    have h380 := hInv.1 kp hkp
    have hlen : ¬ kp.length < 380 := by omega
    have hproc := hInv.2 kp hkp hact
    rw [detectStep_skip_eq s f hskip kp hkp hlen hact hproc]
    rfl
  · have hskip' : skipInference s = false := by simpa using hskip
    rcases hf with rfl | ⟨kp, rfl, hlen⟩
    · rw [detectStep_noskip_none s hskip']
      rfl
    · rw [detectStep_noskip_short s kp hskip' hlen]

theorem unusable_frame_preserves_challenge_state_witness :
    challengeState (detectStep initDState none).inner =
      challengeState initDState.inner :=
  unusable_frame_preserves_challenge_state initDState ⟨[], rfl⟩ none (Or.inl rfl)

theorem cosineDistance_props_witness :
    cosineDistance [(1 : ℝ), 0] [0, 1] = cosineDistance [0, 1] [(1 : ℝ), 0] ∧
    cosineDistance [(1 : ℝ), 0] [(1 : ℝ), 0] = .ok 0 ∧
    cosineDistance [(0 : ℝ)] [5] = .ok 1 :=
  ⟨cosineDistance_props.1 _ _ (by simp) (by simp) rfl,
   cosineDistance_props.2.1 _ ⟨1, by simp, one_ne_zero⟩,
   cosineDistance_props.2.2 _ _ rfl (Or.inl (by norm_num [dotAcc]))⟩
